import Mathlib

/-!
Shallow embedding of the shadcn-ui MCP server content pipeline
(src/helpers.ts, src/handlers.ts and the legacy src/parsers.ts / old
index.ts variants).

Modelling conventions:
* JavaScript strings are `List Char`; `undefined` and optional values are
  `Option`; thrown exceptions are `Except Err` with `Err` the message.
* The module-level `resourceCache` (a `Map<string, ComponentDocResource>`)
  is an explicit state `Cache := List Char → Option ComponentDocResource`
  threaded through the stateful functions.
* The network is an oracle mapping a URL and a zero-based attempt index to
  the outcome of that fetch attempt; each stateful function also returns
  the number of underlying fetch attempts it performed, so that "no
  network call happens" is expressible as the count being zero.
* The specific regular expressions of helpers.ts are compiled by hand into
  scanning functions that reproduce the JavaScript engine behaviour
  (leftmost match, greedy or lazy quantifiers with backtracking) for those
  exact patterns.  The replacement strings never contain a dollar sign, so
  `String.prototype.replace` is plain substring substitution.
-/

/-- Error messages, as carried by thrown `Error` objects. -/
abbrev Err := List Char

/-- The double-quote character. -/
def dquote : Char := Char.ofNat 34

/-- The single-quote character. -/
def squote : Char := Char.ofNat 39

/-- The characters matched by the JavaScript regex class `\s` (also the set
trimmed by `String.prototype.trim`): ASCII whitespace, NBSP, the Unicode
space separators, line and paragraph separators, narrow NBSP, medium
mathematical space, ideographic space and the BOM. -/
def isJsWs (c : Char) : Bool :=
  c.toNat = 9 || c.toNat = 10 || c.toNat = 11 || c.toNat = 12 || c.toNat = 13 ||
  c.toNat = 32 || c.toNat = 0xa0 || c.toNat = 0x1680 ||
  (0x2000 ≤ c.toNat && c.toNat ≤ 0x200a) ||
  c.toNat = 0x2028 || c.toNat = 0x2029 || c.toNat = 0x202f ||
  c.toNat = 0x205f || c.toNat = 0x3000 || c.toNat = 0xfeff

/-- JavaScript `String.prototype.trim`: strip whitespace from both ends. -/
def trimList (s : List Char) : List Char :=
  ((s.dropWhile isJsWs).reverse.dropWhile isJsWs).reverse

/-- The characters kept by the sanitizer regex `[^a-zA-Z0-9-_]` of
`fetchAndCacheComponentData` (helpers.ts line 157). -/
def isComponentNameChar (c : Char) : Bool :=
  (48 ≤ c.toNat && c.toNat ≤ 57) || (65 ≤ c.toNat && c.toNat ≤ 90) ||
  (97 ≤ c.toNat && c.toNat ≤ 122) || c.toNat = 45 || c.toNat = 95

/-- The JavaScript regex class `\w`: ASCII letters, digits and underscore. -/
def isWordChar (c : Char) : Bool :=
  (48 ≤ c.toNat && c.toNat ≤ 57) || (65 ≤ c.toNat && c.toNat ≤ 90) ||
  (97 ≤ c.toNat && c.toNat ≤ 122) || c.toNat = 95

/-- Match a literal at the head of the subject; on success return the rest of
the subject.  Workhorse for the literal parts of the scanners. -/
def dropLit : List Char → List Char → Option (List Char)
  | [], s => some s
  | _ :: _, [] => none
  | c :: cs, d :: ds => if c = d then dropLit cs ds else none

/-- Leftmost-match search: try the position matcher at every start position,
left to right, as the JavaScript regex engine does for an unanchored
pattern. -/
def findMatch {α : Type} (mAt : List Char → Option α) : List Char → Option α
  | [] => mAt []
  | c :: cs =>
    match mAt (c :: cs) with
    | some r => some r
    | none => findMatch mAt cs

/-- Greedy `\s*`: skip the maximal run of whitespace. -/
def skipJsWs : List Char → List Char
  | [] => []
  | c :: cs => if isJsWs c then skipJsWs cs else c :: cs

/-- Greedy character-class run: split off the longest prefix of characters
NOT satisfying `stop`. -/
def takeRun (stop : Char → Bool) : List Char → List Char × List Char
  | [] => ([], [])
  | c :: cs =>
    if stop c then ([], c :: cs)
    else
      let p := takeRun stop cs
      (c :: p.1, p.2)

/-- Is the character one of the two quote characters (double or single)? -/
def isQuoteChar (c : Char) : Bool := c = dquote || c = squote

/-- Position matcher for the quoted description pattern
`description:\s*[Q](capture of one or more non-Q)[Q]` where Q stands for
the class of the two quote characters (and, with `spaced = true`, for the
spaced-colon variant with `\s*` before the colon as well).  All the
quantifiers here are deterministic: `\s*` is followed by a character that
is not whitespace and the quantified non-quote class by a character it
excludes, so no backtracking can succeed where the greedy run failed. -/
def descQuotedAt (spaced : Bool) (s : List Char) : Option (List Char) := do
  let s1 ← dropLit "description".data s
  let s2 := if spaced then skipJsWs s1 else s1
  let s3 ← dropLit ":".data s2
  let s4 := skipJsWs s3
  match s4 with
  | [] => none
  | q :: rest =>
    if isQuoteChar q then
      let p := takeRun isQuoteChar rest
      match p.1, p.2 with
      | [], _ => none
      | _ :: _, [] => none
      | cap, _ :: _ => some cap
    else none

/-- Backtracking tail `\s*([^\n]+)` of the unquoted patterns: the greedy
`\s*` prefers to consume a whitespace character and only on failure of the
remainder lets `[^\n]+` start there instead. -/
def restOfLineTailAt : List Char → Option (List Char)
  | [] => none
  | c :: cs =>
    if isJsWs c then
      match restOfLineTailAt cs with
      | some cap => some cap
      | none =>
        if c = '\n' then none
        else some (takeRun (fun d => d = '\n') (c :: cs)).1
    else
      if c = '\n' then none
      else some (takeRun (fun d => d = '\n') (c :: cs)).1

/-- Position matcher for a pattern `/key\s*([^\n]+)/` where `key` is a
literal ending in a colon, e.g. `/description:\s*([^\n]+)/`,
`/doc:\s*([^\n]+)/`, `/api:\s*([^\n]+)/`. -/
def keyRestOfLineAt (key : List Char) (s : List Char) : Option (List Char) := do
  let s1 ← dropLit key s
  restOfLineTailAt s1

/-- The ordered description extraction rules of helpers.ts
(`DESCRIPTION_PATTERNS`, lines 38-42), each compiled to a whole-subject
leftmost-match function returning the first capture group. -/
def DESCRIPTION_PATTERNS : List (List Char → Option (List Char)) :=
  [findMatch (descQuotedAt false),
   findMatch (keyRestOfLineAt "description:".data),
   findMatch (descQuotedAt true)]

/-- Lazy capture of `FRONTMATTER_REGEX` after the leading `---\n`: the
shortest run of arbitrary characters followed by `\n---`. -/
def fmLazyCapture : List Char → Option (List Char)
  | [] => none
  | c :: cs =>
    if ("\n---".data).isPrefixOf (c :: cs) then some []
    else (fmLazyCapture cs).map (fun t => c :: t)

/-- `FRONTMATTER_REGEX`, the pattern `^---\n([\s\S]*?)\n---` anchored at the
start of the document: the first capture group, when the regex matches. -/
def frontmatterMatch (mdx : List Char) : Option (List Char) :=
  dropLit "---\n".data mdx >>= fmLazyCapture

/-- The frontmatter string: the first capture group when the frontmatter
regex matches, the empty string otherwise, as computed in
`fetchAndCacheComponentData` (helpers.ts lines 171-172). -/
def frontmatterOf (mdx : List Char) : List Char :=
  (frontmatterMatch mdx).getD []

/-- Lazy tail of `FIRST_PARAGRAPH_REGEX` after the leading `---\n`:
expand `[\s\S]*?` one character at a time; at each stop try the
continuation `\n---\n\n` followed by the capture `([^\n]+)`; a failed
continuation (including a failed `[^\n]+`) resumes the lazy expansion. -/
def fpLazyTail : List Char → Option (List Char)
  | [] => none
  | c :: cs =>
    match dropLit "\n---\n\n".data (c :: cs) with
    | some r =>
      match r with
      | [] => fpLazyTail cs
      | d :: _ =>
        if d = '\n' then fpLazyTail cs
        else some (takeRun (fun x => x = '\n') r).1
    | none => fpLazyTail cs

/-- `FIRST_PARAGRAPH_REGEX`, the unanchored pattern
`---\n[\s\S]*?\n---\n\n([^\n]+)`: the first capture group of the leftmost
match, when the regex matches. -/
def firstParagraphMatch (mdx : List Char) : Option (List Char) :=
  findMatch (fun s => dropLit "---\n".data s >>= fpLazyTail) mdx

/-- `extractDescription` (helpers.ts lines 59-67): try the description
patterns in declared order on the frontmatter, returning the first trimmed
capture; otherwise fall back to the first-paragraph pattern on the whole
document; otherwise the empty string. -/
def extractDescription (frontmatter mdxContent : List Char) : List Char :=
  match DESCRIPTION_PATTERNS.findSome? (fun pat => pat frontmatter) with
  | some cap => trimList cap
  | none =>
    match firstParagraphMatch mdxContent with
    | some cap => trimList cap
    | none => []

/-- Lazy capture of `LINKS_REGEX = /links:\n([\s\S]*?)(?=\n\w|$)/` after the
literal `links:\n`: the shortest run of characters up to a position
followed by a newline and a word character, or up to the end of input
(the `$` alternative always eventually holds, so the match never fails
once the literal is found). -/
def linksLazyCapture : List Char → Option (List Char)
  | [] => some []
  | c :: cs =>
    match c :: cs with
    | a :: b :: _ =>
      if a = '\n' && isWordChar b then some []
      else (linksLazyCapture cs).map (fun t => c :: t)
    | _ => (linksLazyCapture cs).map (fun t => c :: t)

/-- The first capture group of `LINKS_REGEX` on the frontmatter. -/
def linksMatch (frontmatter : List Char) : Option (List Char) :=
  findMatch (fun s => dropLit "links:\n".data s >>= linksLazyCapture) frontmatter

/-- `extractLinks` (helpers.ts lines 69-83): inside the links block find the
`doc:` and `api:` rest-of-line entries and append their trimmed values,
doc first. -/
def extractLinks (frontmatter : List Char) : List (List Char) :=
  match linksMatch frontmatter with
  | none => []
  | some linksContent =>
    let docLink := findMatch (keyRestOfLineAt "doc:".data) linksContent
    let apiLink := findMatch (keyRestOfLineAt "api:".data) linksContent
    (match docLink with
     | some d => [trimList d]
     | none => []) ++
    (match apiLink with
     | some a => [trimList a]
     | none => [])

/-- Position matcher for
`CLI_COMMAND_REGEX = /```bash\nnpx shadcn@latest add [^\n]+\n```/`,
returning the whole match (`match[0]`).  `[^\n]+` is greedy and the
continuation starts with `\n`, which the class excludes, so there is no
backtracking. -/
def cliCommandMatchAt (s : List Char) : Option (List Char) := do
  let s1 ← dropLit "```bash\nnpx shadcn@latest add ".data s
  let p := takeRun (fun d => d = '\n') s1
  match p.1, dropLit "\n```".data p.2 with
  | _ :: _, some _ =>
    some ("```bash\nnpx shadcn@latest add ".data ++ p.1 ++ "\n```".data)
  | _, _ => none

theorem dropLit_some_length {pat s r : List Char} (h : dropLit pat s = some r) :
    s.length = pat.length + r.length := by
  induction pat generalizing s with
  | nil =>
    simp [dropLit] at h
    simp [h]
  | cons c cs ih =>
    cases s with
    | nil => simp [dropLit] at h
    | cons d ds =>
      by_cases hcd : c = d
      · simp [dropLit, hcd] at h
        have := ih h
        simp [List.length_cons, this]
        omega
      · simp [dropLit, hcd] at h

/-- The global replacement of the fence literals by the empty string,
`replace(/```bash\n|\n```/g, ...)`,
applied to a CLI command match (helpers.ts line 178): scan left to right,
deleting every occurrence of either fence literal (first alternative
preferred), keeping all other characters. -/
def stripCliFences (s : List Char) : List Char :=
  match h1 : dropLit "```bash\n".data s with
  | some r => stripCliFences r
  | none =>
    match h2 : dropLit "\n```".data s with
    | some r => stripCliFences r
    | none =>
      match s with
      | [] => []
      | c :: cs => c :: stripCliFences cs
termination_by s.length
decreasing_by
  · have hl := dropLit_some_length h1
    simp at hl
    omega
  · have hl := dropLit_some_length h2
    simp at hl
    omega
  · simp

/-- The canonical CLI command extracted from a document: the whole regex
match with the fence literals removed and the result trimmed, `undefined`
when the regex does not match (helpers.ts lines 177-178). -/
def extractedCliCommand (mdx : List Char) : Option (List Char) :=
  (findMatch cliCommandMatchAt mdx).map (fun m => trimList (stripCliFences m))

/-- The package managers of the `PackageManager` union type. -/
inductive PackageManager where
  | npm
  | pnpm
  | yarn
  | bun
deriving DecidableEq

/-- `RUNTIME_REPLACEMENTS` (helpers.ts lines 31-35): the replacement for the
`npx` invocation token, declared for every runner except `npm` (hence
`none` at `npm`). -/
def RUNTIME_REPLACEMENTS : PackageManager → Option (List Char)
  | .pnpm => some "pnpm dlx".data
  | .yarn => some "yarn dlx".data
  | .bun => some "bunx".data
  | .npm => none

/-- JavaScript `String.prototype.replace` with a plain string pattern and a
replacement containing no dollar sign: replace the leftmost occurrence of
the pattern, if any. -/
def replaceFirst : List Char → List Char → List Char → List Char
  | [], pat, rep => if pat.isPrefixOf [] then rep else []
  | c :: cs, pat, rep =>
    if pat.isPrefixOf (c :: cs) then rep ++ (c :: cs).drop pat.length
    else c :: replaceFirst cs pat rep

/-- `getCliCommand` (helpers.ts lines 85-88): for a missing runtime or
`npm` return the command unchanged, otherwise replace the first `npx` by
the runtime replacement.  (`RUNTIME_REPLACEMENTS` is `some` on every
non-npm runner, so the `none` fallback is unreachable.) -/
def getCliCommand (cliCommand : List Char) (runtime : Option PackageManager) : List Char :=
  match runtime with
  | none | some .npm => cliCommand
  | some r =>
    match RUNTIME_REPLACEMENTS r with
    | some rep => replaceFirst cliCommand "npx".data rep
    | none => cliCommand

/-- `CommandSet` (helpers.ts lines 15-20). -/
structure CommandSet where
  npm : List Char
  pnpm : List Char
  yarn : List Char
  bun : List Char
deriving DecidableEq

/-- `ComponentDocResource` (helpers.ts lines 22-29); optional fields are
`Option`. -/
structure ComponentDocResource where
  name : List Char
  description : Option (List Char)
  doc : Option (List Char)
  commands : Option (List CommandSet)
  links : Option (List (List Char))
  isBlock : Option Bool
deriving DecidableEq

/-- The module-level `resourceCache` map, made explicit as a state. -/
abbrev Cache := List Char → Option ComponentDocResource

/-- `Map.prototype.set` on the cache. -/
def cacheSet (st : Cache) (key : List Char) (v : ComponentDocResource) : Cache :=
  fun n => if n = key then some v else st n

/-- `RETRY_ATTEMPTS` (helpers.ts line 3). -/
def RETRY_ATTEMPTS : Nat := 3

/-- `RETRY_DELAY_MS` (helpers.ts line 4). -/
def RETRY_DELAY_MS : Nat := 500

/-- `BASE_URL` (helpers.ts line 5). -/
def BASE_URL : List Char := "https://ui.shadcn.com".data

/-- `RAW_GITHUB_URL` (helpers.ts line 6). -/
def RAW_GITHUB_URL : List Char :=
  "https://raw.githubusercontent.com/shadcn-ui/ui/refs/heads/main/apps".data

/-- `fetchWithRetry` (helpers.ts lines 98-111) over an attempt oracle `att`
(attempt index ↦ outcome of that fetch, where a non-ok HTTP status is
already a thrown error).  Returns the list of performed delays (in ms, in
order) together with the final outcome: an immediate success performs no
delay; after a failure, if `retries <= 1` the error is rethrown, otherwise
the code waits `delay` and retries with `retries - 1` and `delay * 2`. -/
def fetchWithRetry {α : Type} (att : Nat → Except Err α) (i : Nat)
    (retries : Nat) (delay : Nat) : List Nat × Except Err α :=
  match att i, retries with
  | .ok r, _ => ([], .ok r)
  | .error e, 0 => ([], .error e)
  | .error e, 1 => ([], .error e)
  | .error e, n + 2 =>
    let p := fetchWithRetry att (i + 1) (n + 1) (delay * 2)
    (delay :: p.1, p.2)

/-- `cacheResource` (helpers.ts lines 113-130), generic in the cached type:
return a cache hit directly; otherwise on fetch success insert and return,
on fetch failure rethrow a wrapped error leaving the cache unchanged. -/
def cacheResource {α : Type} (key : List Char) (fetchResult : Except Err α)
    (cache : List Char → Option α) : Except Err α × (List Char → Option α) :=
  match cache key with
  | some v => (.ok v, cache)
  | none =>
    match fetchResult with
    | .ok d => (.ok d, fun n => if n = key then some d else cache n)
    | .error e =>
      (.error ("Failed to fetch data for key ".data ++ [squote] ++ key ++ [squote]
        ++ ": ".data ++ e), cache)

/-- `fetchAndCache` (helpers.ts lines 132-149): run the fetch and the
transform; on success store every transformed resource in the cache keyed
by its name and return the list; on either failure rethrow a wrapped
error, leaving the cache untouched. -/
def fetchAndCache {α : Type} (key : List Char) (fetchResult : Except Err α)
    (transformFn : α → Except Err (List ComponentDocResource)) (st : Cache) :
    Except Err (List ComponentDocResource) × Cache :=
  match (match fetchResult with
         | .ok raw => transformFn raw
         | .error e => .error e) with
  | .error e =>
    (.error ("Failed to fetch and transform data for key ".data ++ [squote] ++ key
      ++ [squote] ++ ": ".data ++ e), st)
  | .ok transformedData =>
    (.ok transformedData, transformedData.foldl (fun c d => cacheSet c d.name d) st)

/-- `transformComponentData` (helpers.ts lines 170-199): build the single
component resource from the raw document text. -/
def transformComponentData0 (component mdxContent : List Char) : ComponentDocResource :=
  let frontmatter := frontmatterOf mdxContent
  let description := extractDescription frontmatter mdxContent
  let links := extractLinks frontmatter
  let cliCommand := extractedCliCommand mdxContent
  let commands : Option (List CommandSet) :=
    match cliCommand with
    | some c =>
      some [{ npm := c,
              pnpm := getCliCommand c (some .pnpm),
              yarn := getCliCommand c (some .yarn),
              bun := getCliCommand c (some .bun) }]
    | none => none
  { name := component,
    description := some description,
    doc := some mdxContent,
    commands := commands,
    links := if links.length > 0 then some links else none,
    isBlock := some false }

/-- The one-element array returned by `transformComponentData`. -/
def transformComponentData (component mdxContent : List Char) : List ComponentDocResource :=
  [transformComponentData0 component mdxContent]

/-- A network oracle for text documents: URL and attempt index ↦ outcome. -/
abbrev NetText := List Char → Nat → Except Err (List Char)

/-- The documentation URL built in `fetchAndCacheComponentData`
(helpers.ts lines 167-168). -/
def componentUrl (component : List Char) : List Char :=
  RAW_GITHUB_URL ++ "/".data ++ "www/content/docs/components".data ++ "/".data
    ++ component ++ ".mdx".data

/-- `fetchAndCacheComponentData` (helpers.ts lines 151-211): validate and
sanitize the name, short-circuit on a cache hit, otherwise fetch the
document with retry, transform it and cache the resource under the
component name.  The third component counts the underlying fetch attempts
performed during the call. -/
def fetchAndCacheComponentData (net : NetText) (component : List Char) (st : Cache) :
    Except Err ComponentDocResource × Cache × Nat :=
  if component = [] then (.error "Invalid component name".data, st, 0)
  else if component.filter isComponentNameChar ≠ component then
    (.error ("Invalid component name: ".data ++ component), st, 0)
  else
    match st component with
    | some r => (.ok r, st, 0)
    | none =>
      let url := componentUrl component
      let fr := fetchWithRetry (net url) 0 RETRY_ATTEMPTS RETRY_DELAY_MS
      let attempts := fr.1.length + 1
      match fetchAndCache component fr.2
          (fun mdx => .ok (transformComponentData component mdx)) st with
      | (.error e, st2) => (.error e, st2, attempts)
      | (.ok td, st2) =>
        match td with
        | d :: _ => (.ok d, st2, attempts)
        | [] => (.error [], st2, attempts)

theorem transformComponentData_ne_nil (component mdx : List Char) :
    transformComponentData component mdx ≠ [] := by
  simp [transformComponentData]

/-- `Block` (helpers.ts lines 213-218).  `parseBlocksFromPage` always
assigns all four fields (the optional `description` is always a string
there), so the field is plain. -/
structure Block where
  name : List Char
  command : List Char
  doc : List Char
  description : List Char
deriving DecidableEq

/-- One element matched by the cheerio selector
`.container-wrapper.flex-1 div[id]` of a block page, abstracted to the
texts the scraper reads from it: the value of its `id` attribute (present
by the selector, possibly empty), the text of the nested anchor, the text
of the nested copy-button span, and the text of its first `code` element
(each the empty string when the nested selector finds nothing). -/
structure BlockEl where
  id : List Char
  anchorText : List Char
  commandText : List Char
  codeText : List Char
deriving DecidableEq

/-- The pure element loop of `parseBlocksFromPage` (helpers.ts lines
257-269): for every element whose id is truthy and does not start with
`radix-`, push a block built from the trimmed texts; there is no guard on
the command or code texts being nonempty. -/
def parseBlocksFromHtml (els : List BlockEl) : List Block :=
  els.filterMap (fun el =>
    if !el.id.isEmpty && !(("radix-".data).isPrefixOf el.id) then
      some { name := el.id,
             description := trimList el.anchorText,
             command := trimList el.commandText,
             doc := trimList el.codeText }
    else none)

/-- A network oracle for block pages: URL and attempt index ↦ the list of
elements matched by the container selector in the fetched page. -/
abbrev NetPage := List Char → Nat → Except Err (List BlockEl)

/-- `parseBlocksFromPage` (helpers.ts lines 245-279): validate the URL,
fetch with retry, run the element loop; a fetch failure is rethrown with a
wrapping message.  The second component counts the fetch attempts. -/
def parseBlocksFromPage (net : NetPage) (url : List Char) : Except Err (List Block) × Nat :=
  if url = [] ∨ ¬ (("https://".data).isPrefixOf url = true) then
    (.error ("Invalid URL: ".data ++ url), 0)
  else
    let fr := fetchWithRetry (net url) 0 RETRY_ATTEMPTS RETRY_DELAY_MS
    match fr.2 with
    | .error e =>
      (.error ("Failed to parse blocks from ".data ++ url ++ ": ".data ++ e),
       fr.1.length + 1)
    | .ok els => (.ok (parseBlocksFromHtml els), fr.1.length + 1)

/-- `BLOCK_PAGES` (helpers.ts lines 8-11). -/
def BLOCK_PAGES : List (List Char) :=
  [BASE_URL ++ "/blocks/sidebar".data,
   BASE_URL ++ "/blocks/authentication".data]

/-- `transformBlocks` inside `fetchAndCacheBlocks` (helpers.ts lines
221-236): flatten the per-page block lists and convert each block into a
resource with the four derived commands. -/
def transformBlocks (blockPages : List (List Block)) : List ComponentDocResource :=
  (blockPages.flatten).map (fun block =>
    { name := block.name,
      description := some block.description,
      doc := some block.doc,
      commands := some [{ npm := block.command,
                          pnpm := getCliCommand block.command (some .pnpm),
                          yarn := getCliCommand block.command (some .yarn),
                          bun := getCliCommand block.command (some .bun) }],
      links := none,
      isBlock := some true })

/-- `Promise.all` over the page results: the aggregate fails as soon as any
page failed (with the first failure in page order), and succeeds with the
list of page results only when every page succeeded. -/
def collectPages : List (Except Err (List Block)) → Except Err (List (List Block))
  | [] => .ok []
  | .error e :: _ => .error e
  | .ok b :: rest => (collectPages rest).map (fun bs => b :: bs)

/-- `fetchAndCacheBlocks` (helpers.ts lines 220-243): fetch and parse every
configured block page, then run the shared `fetchAndCache` with key
`blocks` and `transformBlocks`.  All page fetches are launched, so the
attempt count sums over all pages. -/
def fetchAndCacheBlocks (net : NetPage) (st : Cache) :
    Except Err (List ComponentDocResource) × Cache × Nat :=
  let results := BLOCK_PAGES.map (fun u => parseBlocksFromPage net u)
  let attempts := (results.map (fun pr => pr.2)).sum
  let fetched := collectPages (results.map (fun pr => pr.1))
  let out := fetchAndCache "blocks".data fetched
    (fun pages => .ok (transformBlocks pages)) st
  (out.1, out.2, attempts)

/-- The legacy `Block` type of src/parsers.ts (lines 3-7). -/
structure LegacyBlock where
  name : List Char
  command : List Char
  code : List Char
deriving DecidableEq

/-- One element matched by the legacy selector `main .content-wrapper > div`
of src/parsers.ts, abstracted to what the scraper reads: the `href`
attribute of its nested in-page anchor (absent when there is no anchor)
and the texts of its command span and first code element. -/
structure LegacyEl where
  anchorHref : Option (List Char)
  commandText : List Char
  codeText : List Char
deriving DecidableEq

/-- The pure element loop of the legacy `parseBlocksFromPage`
(src/parsers.ts lines 16-30): name is the anchor href with its first `#`
removed (empty when there is no anchor), and an element is pushed only
when name, command and code are all truthy. -/
def parseBlocksFromPageLegacy (els : List LegacyEl) : List LegacyBlock :=
  els.filterMap (fun el =>
    let name := (el.anchorHref.map (fun h => replaceFirst h "#".data [])).getD []
    let command := trimList el.commandText
    let code := trimList el.codeText
    if !name.isEmpty && !command.isEmpty && !code.isEmpty then
      some { name := name, command := command, code := code }
    else none)

/-- Lexicographic comparison of strings by code point, the order used by the
default `Array.prototype.sort` comparator on an array of strings. -/
def lexLe : List Char → List Char → Bool
  | [], _ => true
  | _ :: _, [] => false
  | x :: xs, y :: ys =>
    if x < y then true
    else if y < x then false
    else lexLe xs ys

/-- `lexLe` as a relation, for the sortedness statements. -/
def lexLeP (a b : List Char) : Prop := lexLe a b = true

instance : DecidableRel lexLeP := fun a b => by
  unfold lexLeP
  infer_instance

/-- One anchor element of a components page, abstracted to its `href`
attribute (absent when the anchor has none). -/
structure Anchor where
  href : Option (List Char)
deriving DecidableEq

/-- The anchors selected by `a[href^="/docs/components/"]`: those whose
href is present and starts with the documentation path. -/
def matchedHrefs (anchors : List Anchor) : List (List Char) :=
  anchors.filterMap (fun a =>
    match a.href with
    | some h => if ("/docs/components/".data).isPrefixOf h then some h else none
    | none => none)

/-- The names produced before sorting in `parseComponentsFromHtml`
(helpers.ts lines 289-295): the last `/`-separated segment of each matched
href (cheerio `.map` skips `undefined`, which `pop` never returns on a
split result), with empty names dropped by `.filter(Boolean)`. -/
def componentNamesRaw (anchors : List Anchor) : List (List Char) :=
  ((matchedHrefs anchors).filterMap (fun h => (h.splitOn '/').getLast?)).filter
    (fun n => !n.isEmpty)

/-- `parseComponentsFromHtml` (helpers.ts lines 281-306).  The raw page is
abstracted to its selected anchors plus the flag `htmlIsFalsy` for the
guard on the raw string (an empty or non-string argument throws).  On
success returns the sorted names together with the diagnostic flag: the
code logs a console warning exactly when the sorted list is empty. -/
def parseComponentsFromHtml (htmlIsFalsy : Bool) (anchors : List Anchor) :
    Except Err (List (List Char) × Bool) :=
  if htmlIsFalsy then .error "Invalid HTML content".data
  else
    let components := List.insertionSort lexLeP (componentNamesRaw anchors)
    .ok (components, components.isEmpty)

/-- A tool response (`createResponse`, helpers.ts lines 90-93): one text
content item, an error flag, an optional mime type. -/
structure Response where
  text : List Char
  isError : Bool
  mimeType : Option (List Char)
deriving DecidableEq

/-- `createResponse` (helpers.ts lines 90-93). -/
def createResponse (text : List Char) (isError : Bool) (mimeType : Option (List Char)) :
    Response :=
  { text := text, isError := isError, mimeType := mimeType }

/-- `handleError` (helpers.ts lines 95-96): an error response whose text is
the prefix, a colon and the thrown message. -/
def handleError (e : Err) (pfx : List Char) : Response :=
  createResponse (pfx ++ ": ".data ++ e) true none

/-- JavaScript truthiness of an optional string: `undefined` and the empty
string are falsy. -/
def jsTruthyStr : Option (List Char) → Bool
  | none => false
  | some s => !s.isEmpty

/-- JavaScript string interpolation of an optional string: `undefined`
prints as the literal text `undefined`. -/
def jsStr : Option (List Char) → List Char
  | none => "undefined".data
  | some s => s

/-- `validateRuntime` (helpers.ts lines 56-57): a falsy runtime (absent or
empty) passes, otherwise the string must be one of the four runner
names. -/
def validateRuntime (runtime : Option (List Char)) : Bool :=
  !jsTruthyStr runtime ||
    ["npm".data, "pnpm".data, "yarn".data, "bun".data].contains (jsStr runtime)

/-- JavaScript property access `commands[runtime]` for an arbitrary runtime
string: `undefined` unless the string is one of the four keys. -/
def csIndex (cs : CommandSet) (s : List Char) : Option (List Char) :=
  if s = "npm".data then some cs.npm
  else if s = "pnpm".data then some cs.pnpm
  else if s = "yarn".data then some cs.yarn
  else if s = "bun".data then some cs.bun
  else none

/-- The command selection of the install handlers (handlers.ts lines 64-65
and 135-136): `selectedRuntime ? commands[selectedRuntime] : commands.npm`. -/
def selectCommand (runtime : Option (List Char)) (cs : CommandSet) : Option (List Char) :=
  if jsTruthyStr runtime then csIndex cs (jsStr runtime) else some cs.npm

/-- The shared answering tail of the install handlers (handlers.ts lines
59-71 and 131-140): take `commands?.[0]` (absent commands or an empty
array yield the caller-supplied not-found message), select the runtime
command, and answer the command — a falsy (absent or empty) selected
command yields the runtime-keyed error. -/
def commandAnswer (runtime : Option (List Char)) (cs : CommandSet) : Response :=
  match selectCommand runtime cs with
  | some (c :: rest) => createResponse (c :: rest) false none
  | _ =>
    createResponse ("No installation command found for runtime ".data
      ++ [squote] ++ jsStr runtime ++ [squote]) true none

/-- The `commands?.[0]` guard of the install handlers: absent commands or an
empty array yield the caller-supplied not-found message, otherwise the
selected command is answered. -/
def commandResponse (noCmdMsg : List Char) (runtime : Option (List Char))
    (commands : Option (List CommandSet)) : Response :=
  match commands with
  | some (cs :: _) => commandAnswer runtime cs
  | _ => createResponse noCmdMsg true none

/-- `installComponent` (handlers.ts lines 47-75): require a component name,
validate a truthy runtime before any network activity, resolve the
component (throwing errors become error responses), then answer with the
selected command.  The `Nat` counts fetch attempts performed by the
call. -/
def installComponent (net : NetText) (component : List Char)
    (runtime : Option (List Char)) (st : Cache) : Response × Cache × Nat :=
  if component = [] then
    (createResponse "Component name is required".data true none, st, 0)
  else if jsTruthyStr runtime && !validateRuntime runtime then
    (createResponse ("Invalid runtime: ".data ++ jsStr runtime
      ++ ". Must be one of: npm, pnpm, yarn, bun".data) true none, st, 0)
  else
    match fetchAndCacheComponentData net component st with
    | (.error e, st2, k) =>
      (handleError e "Error generating installation command".data, st2, k)
    | (.ok componentData, st2, k) =>
      (commandResponse ("No installation command found for component ".data
        ++ [squote] ++ component ++ [squote]) runtime componentData.commands, st2, k)

/-- `getBlockData` (handlers.ts lines 87-100).  The outer `Except` is a
thrown exception propagating from `fetchAndCacheBlocks`; the inner one is
the `{ error }` object returned for a missing name or unknown block. -/
def getBlockData (net : NetPage) (block : List Char) (st : Cache) :
    Except Err (Except Err ComponentDocResource) × Cache × Nat :=
  if block = [] then (.ok (.error "Block name is required".data), st, 0)
  else
    match st block with
    | some r => (.ok (.ok r), st, 0)
    | none =>
      match fetchAndCacheBlocks net st with
      | (.error e, st2, k) => (.error e, st2, k)
      | (.ok _, st2, k) =>
        match st2 block with
        | some r => (.ok (.ok r), st2, k)
        | none =>
          (.ok (.error ("Block ".data ++ [squote] ++ block ++ [squote]
            ++ " not found. Use list-blocks to see available blocks.".data)), st2, k)

/-- `installBlock` (handlers.ts lines 122-144): validate a truthy runtime,
resolve the block through `getBlockData`, then answer with the selected
command; a returned `{ error }` becomes a plain error response, a thrown
error goes through `handleError`. -/
def installBlock (net : NetPage) (block : List Char)
    (runtime : Option (List Char)) (st : Cache) : Response × Cache × Nat :=
  if jsTruthyStr runtime && !validateRuntime runtime then
    (createResponse ("Invalid runtime: ".data ++ jsStr runtime
      ++ ". Must be one of: npm, pnpm, yarn, bun".data) true none, st, 0)
  else
    match getBlockData net block st with
    | (.error e, st2, k) =>
      (handleError e "Error generating installation command".data, st2, k)
    | (.ok (.error e), st2, k) => (createResponse e true none, st2, k)
    | (.ok (.ok blockData), st2, k) =>
      (commandResponse ("No installation command found for block ".data
        ++ [squote] ++ block ++ [squote]) runtime blockData.commands, st2, k)

/-- Number of occurrences of a pattern in a string: the number of start
positions at which the pattern matches.  Used only to state hypotheses. -/
def countOccur (pat s : List Char) : Nat :=
  ((List.range (s.length + 1)).filter (fun i => pat.isPrefixOf (s.drop i))).length

/-- Modelled from the spec (section 4.3, step 2): the fallback description
in the words of the specification — "the trimmed first non-blank line of
body text immediately following the frontmatter block" — where the body is
everything after the frontmatter block matched at the start of the
document.  Used only to compare the specification wording with the code. -/
def specFallbackDescription (mdx : List Char) : Option (List Char) :=
  match frontmatterMatch mdx with
  | none => none
  | some fm =>
    let body := mdx.drop (fm.length + 8)
    ((body.splitOn '\n').find? (fun l => !(trimList l).isEmpty)).map trimList

theorem replaceFirst_of_isPrefixOf (s pat rep : List Char) (h : pat.isPrefixOf s = true) :
    replaceFirst s pat rep = rep ++ s.drop pat.length := by
  cases s with
  | nil =>
    cases pat with
    | nil => simp [replaceFirst]
    | cons c cs => simp [List.isPrefixOf] at h
  | cons c cs => simp [replaceFirst, h]

theorem replaceFirst_append (pat rest rep : List Char) :
    replaceFirst (pat ++ rest) pat rep = rep ++ rest := by
  rw [replaceFirst_of_isPrefixOf _ _ _
    (List.isPrefixOf_iff_prefix.mpr (List.prefix_append pat rest))]
  rw [List.drop_left]

theorem lexLe_total (a b : List Char) : lexLe a b = true ∨ lexLe b a = true := by
  induction a generalizing b with
  | nil => left; rfl
  | cons x xs ih =>
    cases b with
    | nil => right; rfl
    | cons y ys =>
      rcases lt_trichotomy x y with hxy | hxy | hxy
      · left; simp [lexLe, hxy]
      · subst hxy
        rcases ih ys with h | h
        · left; simp [lexLe, h]
        · right; simp [lexLe, h]
      · right; simp [lexLe, hxy]

theorem lexLe_trans (a b c : List Char) (hab : lexLe a b = true) (hbc : lexLe b c = true) :
    lexLe a c = true := by
  induction a generalizing b c with
  | nil => rfl
  | cons x xs ih =>
    cases b with
    | nil => simp [lexLe] at hab
    | cons y ys =>
      cases c with
      | nil => simp [lexLe] at hbc
      | cons z zs =>
        rcases lt_trichotomy x y with hxy | hxy | hxy
        · rcases lt_trichotomy y z with hyz | hyz | hyz
          · simp [lexLe, lt_trans hxy hyz]
          · subst hyz; simp [lexLe, hxy]
          · simp [lexLe, hyz, not_lt_of_lt hyz] at hbc
        · subst hxy
          rcases lt_trichotomy x z with hxz | hxz | hxz
          · simp [lexLe, hxz]
          · subst hxz
            simp [lexLe, lt_irrefl] at hab hbc ⊢
            exact ih ys zs hab hbc
          · simp [lexLe, hxz, not_lt_of_lt hxz] at hbc
        · simp [lexLe, hxy, not_lt_of_lt hxy] at hab

instance : IsTotal (List Char) lexLeP := ⟨lexLe_total⟩

instance : IsTrans (List Char) lexLeP := ⟨lexLe_trans⟩

theorem fetchAndCache_error {α : Type} (key : List Char) (e : Err)
    (tf : α → Except Err (List ComponentDocResource)) (st : Cache) :
    fetchAndCache key (.error e) tf st =
      (.error ("Failed to fetch and transform data for key ".data ++ [squote] ++ key
        ++ [squote] ++ ": ".data ++ e), st) := rfl

/-- C1: with the default parameters (3 total attempts, 500 ms initial delay)
`fetchWithRetry` returns the first successful attempt without further
waiting — no delay when attempt 0 succeeds, one 500 ms delay when attempt
1 is the first success, the delays 500 ms then 1000 ms when attempt 2 is
the first success — and when every attempt fails it performs exactly
`maxAttempts - 1 = 2` delays (500 then 1000, doubling) and rethrows the
failure observed on the last attempt. -/
theorem C1_fetchWithRetry_policy {α : Type} (att : Nat → Except Err α) :
    (∀ r, att 0 = .ok r →
      fetchWithRetry att 0 RETRY_ATTEMPTS RETRY_DELAY_MS = ([], .ok r)) ∧
    (∀ e0 r, att 0 = .error e0 → att 1 = .ok r →
      fetchWithRetry att 0 RETRY_ATTEMPTS RETRY_DELAY_MS = ([500], .ok r)) ∧
    (∀ e0 e1 r, att 0 = .error e0 → att 1 = .error e1 → att 2 = .ok r →
      fetchWithRetry att 0 RETRY_ATTEMPTS RETRY_DELAY_MS = ([500, 1000], .ok r)) ∧
    (∀ e0 e1 e2, att 0 = .error e0 → att 1 = .error e1 → att 2 = .error e2 →
      fetchWithRetry att 0 RETRY_ATTEMPTS RETRY_DELAY_MS = ([500, 1000], .error e2)) := by
  refine ⟨?_, ?_, ?_, ?_⟩
  · intro r h0
    simp [fetchWithRetry, RETRY_ATTEMPTS, RETRY_DELAY_MS, h0]
  · intro e0 r h0 h1
    simp [fetchWithRetry, RETRY_ATTEMPTS, RETRY_DELAY_MS, h0, h1]
  · intro e0 e1 r h0 h1 h2
    simp [fetchWithRetry, RETRY_ATTEMPTS, RETRY_DELAY_MS, h0, h1, h2]
  · intro e0 e1 e2 h0 h1 h2
    simp [fetchWithRetry, RETRY_ATTEMPTS, RETRY_DELAY_MS, h0, h1, h2]

theorem C1_fetchWithRetry_policy_witness :
    fetchWithRetry (fun i => if i < 2 then Except.error "boom".data else Except.ok 7) 0
        RETRY_ATTEMPTS RETRY_DELAY_MS = ([500, 1000], Except.ok 7) :=
  (C1_fetchWithRetry_policy (fun i => if i < 2 then Except.error "boom".data
    else Except.ok 7)).2.2.1 "boom".data "boom".data 7 rfl rfl rfl

/-- C2: for a canonical command whose leading token is the single occurrence
of `npx`, derivation for `npm` (or an omitted runtime) returns the command
unchanged, and derivation for `pnpm`, `yarn` and `bun` replaces exactly
that leading prefix by `pnpm dlx`, `yarn dlx` and `bunx` respectively,
leaving the rest of the command untouched. -/
theorem C2_getCliCommand_replaces_npx (rest : List Char)
    (honce : countOccur "npx".data ("npx".data ++ rest) = 1) :
    getCliCommand ("npx".data ++ rest) none = "npx".data ++ rest ∧
    getCliCommand ("npx".data ++ rest) (some .npm) = "npx".data ++ rest ∧
    getCliCommand ("npx".data ++ rest) (some .pnpm) = "pnpm dlx".data ++ rest ∧
    getCliCommand ("npx".data ++ rest) (some .yarn) = "yarn dlx".data ++ rest ∧
    getCliCommand ("npx".data ++ rest) (some .bun) = "bunx".data ++ rest := by
  exact ⟨rfl, rfl, replaceFirst_append "npx".data rest "pnpm dlx".data,
    replaceFirst_append "npx".data rest "yarn dlx".data,
    replaceFirst_append "npx".data rest "bunx".data⟩

theorem C2_getCliCommand_replaces_npx_witness :
    getCliCommand ("npx".data ++ " shadcn@latest add button".data) (some .pnpm)
      = "pnpm dlx".data ++ " shadcn@latest add button".data ∧
    getCliCommand ("npx".data ++ " shadcn@latest add button".data) (some .npm)
      = "npx".data ++ " shadcn@latest add button".data :=
  ⟨(C2_getCliCommand_replaces_npx " shadcn@latest add button".data (by decide)).2.2.1,
   (C2_getCliCommand_replaces_npx " shadcn@latest add button".data (by decide)).2.1⟩

/-- C3 counterexample: the fallback clause fails in both directions.  For
the document `---\ntitle: X\n---\nAccessible.` no description pattern
matches and the first non-blank body line immediately following the
frontmatter block is `Accessible.`, yet the code produces the empty
description, because the first-paragraph pattern demands exactly one blank
line after the closing `---`.  Conversely, for a document with no
frontmatter block at all (so the claimed fallback is absent and the
description should be empty) the unanchored first-paragraph pattern still
fires on a block in the middle of the text and the code produces
`Hello`. -/
theorem C3_counterexample :
    extractDescription (frontmatterOf "---\ntitle: X\n---\nAccessible.".data)
        "---\ntitle: X\n---\nAccessible.".data = [] ∧
    specFallbackDescription "---\ntitle: X\n---\nAccessible.".data
      = some "Accessible.".data ∧
    frontmatterMatch "intro text\n---\nt\n---\n\nHello".data = none ∧
    extractDescription (frontmatterOf "intro text\n---\nt\n---\n\nHello".data)
        "intro text\n---\nt\n---\n\nHello".data = "Hello".data := by
  refine ⟨?_, ?_, ?_, ?_⟩ <;> rfl

/-- C3 (amended): description extraction applies the three frontmatter
patterns in the declared order, the first matching rule winning with its
trimmed capture; if none matches, the description is the trimmed capture
of the first-paragraph pattern applied to the whole document — the first
non-empty line preceded by exactly one blank line after a closing `---`
of a `---` block found anywhere in the text — and the empty string when
that pattern finds no match.  In particular a frontmatter containing a
quoted `Accessible dialog.` description yields exactly that string, with
no quotes and no surrounding whitespace. -/
theorem C3_description_rule_order (fm mdx : List Char) :
    (∀ cap, findMatch (descQuotedAt false) fm = some cap →
      extractDescription fm mdx = trimList cap) ∧
    (findMatch (descQuotedAt false) fm = none →
      ∀ cap, findMatch (keyRestOfLineAt "description:".data) fm = some cap →
        extractDescription fm mdx = trimList cap) ∧
    (findMatch (descQuotedAt false) fm = none →
      findMatch (keyRestOfLineAt "description:".data) fm = none →
      ∀ cap, findMatch (descQuotedAt true) fm = some cap →
        extractDescription fm mdx = trimList cap) ∧
    (findMatch (descQuotedAt false) fm = none →
      findMatch (keyRestOfLineAt "description:".data) fm = none →
      findMatch (descQuotedAt true) fm = none →
      extractDescription fm mdx = ((firstParagraphMatch mdx).map trimList).getD []) ∧
    extractDescription "description: \x22Accessible dialog.\x22".data mdx
      = "Accessible dialog.".data := by
  refine ⟨?_, ?_, ?_, ?_, ?_⟩
  · intro cap h1
    simp [extractDescription, DESCRIPTION_PATTERNS, List.findSome?, h1]
  · intro h1 cap h2
    simp [extractDescription, DESCRIPTION_PATTERNS, List.findSome?, h1, h2]
  · intro h1 h2 cap h3
    simp [extractDescription, DESCRIPTION_PATTERNS, List.findSome?, h1, h2, h3]
  · intro h1 h2 h3
    simp [extractDescription, DESCRIPTION_PATTERNS, List.findSome?, h1, h2, h3]
    cases firstParagraphMatch mdx <;> simp
  · rfl

theorem C3_description_rule_order_witness :
    extractDescription "description: plain text".data [] = "plain text".data := by
  exact (C3_description_rule_order "description: plain text".data []).2.1
    (by decide) "plain text".data (by decide)

/-- C4 counterexample: in the live scraper (helpers.ts) an element with a
valid id but empty command and code texts is NOT skipped — the returned
sequence contains a block whose `command` and `doc` (code sample) are the
empty string, contradicting the claim that no block with an empty command
or code sample ever appears. -/
theorem C4_counterexample :
    parseBlocksFromHtml [{ id := "login-01".data, anchorText := "Login form".data,
                           commandText := [], codeText := [] }] =
      [{ name := "login-01".data, command := [], doc := [],
         description := "Login form".data }] ∧
    (parseBlocksFromHtml [{ id := "login-01".data, anchorText := "Login form".data,
                            commandText := [], codeText := [] }]).map Block.command
      = [[]] := by
  exact ⟨rfl, rfl⟩

/-- C4 (amended): the live block scraper (helpers.ts) skips exactly the
elements whose id is empty or starts with the framework-internal prefix
`radix-`; every surviving element becomes a block, even when its command
or code text is empty — a returned block is precisely a kept element with
its texts trimmed.  The guard skipping elements with a missing id, command
or code exists only in the legacy scraper (parsers.ts), where every
returned block has nonempty name, command and code. -/
theorem C4_block_element_filtering (els : List BlockEl) (b : Block) :
    (b ∈ parseBlocksFromHtml els ↔
      ∃ el ∈ els, el.id ≠ [] ∧ ("radix-".data).isPrefixOf el.id = false ∧
        b = { name := el.id, command := trimList el.commandText,
              doc := trimList el.codeText, description := trimList el.anchorText }) ∧
    (∀ lels : List LegacyEl, ∀ lb ∈ parseBlocksFromPageLegacy lels,
      lb.name ≠ [] ∧ lb.command ≠ [] ∧ lb.code ≠ []) := by
  constructor
  · rw [parseBlocksFromHtml, List.mem_filterMap]
    constructor
    · rintro ⟨el, hel, hf⟩
      by_cases hc : (!el.id.isEmpty && !(("radix-".data).isPrefixOf el.id)) = true
      · rw [if_pos hc] at hf
        rcases Bool.and_eq_true_iff.mp hc with ⟨hid, hrad⟩
        refine ⟨el, hel, ?_, ?_, ?_⟩
        · intro hnil
          rw [hnil] at hid
          simp at hid
        · simpa using hrad
        · exact (Option.some.injEq _ _).mp hf.symm
      · rw [if_neg hc] at hf
        exact absurd hf (by simp)
    · rintro ⟨el, hel, hid, hrad, rfl⟩
      refine ⟨el, hel, ?_⟩
      rw [if_pos]
      simp [hid, hrad]
  · intro lels lb hmem
    rw [parseBlocksFromPageLegacy, List.mem_filterMap] at hmem
    rcases hmem with ⟨el, _, hf⟩
    set nm := (el.anchorHref.map (fun h => replaceFirst h "#".data [])).getD [] with hnm
    by_cases hc : (!nm.isEmpty && !(trimList el.commandText).isEmpty
        && !(trimList el.codeText).isEmpty) = true
    · simp only [← hnm] at hf
      rw [if_pos hc] at hf
      rcases Bool.and_eq_true_iff.mp hc with ⟨hc1, hcode⟩
      rcases Bool.and_eq_true_iff.mp hc1 with ⟨hname, hcmd⟩
      cases hf
      exact ⟨by simpa using hname, by simpa using hcmd, by simpa using hcode⟩
    · simp only [← hnm] at hf
      rw [if_neg hc] at hf
      exact absurd hf (by simp)

theorem C4_block_element_filtering_witness :
    ({ name := "login-01".data, command := "cmd".data, doc := "code".data,
       description := "A".data } : Block) ∈ parseBlocksFromHtml
        [{ id := "radix-7".data, anchorText := [], commandText := [], codeText := [] },
         { id := "login-01".data, anchorText := "A".data, commandText := "cmd".data,
           codeText := "code".data }] ∧
    (("login-01".data : List Char) ≠ [] ∧ ("cmd".data : List Char) ≠ [] ∧
      ("code".data : List Char) ≠ []) := by
  constructor
  · exact (C4_block_element_filtering
      [{ id := "radix-7".data, anchorText := [], commandText := [], codeText := [] },
       { id := "login-01".data, anchorText := "A".data, commandText := "cmd".data,
         codeText := "code".data }]
      { name := "login-01".data, command := "cmd".data, doc := "code".data,
        description := "A".data }).1.mpr
      ⟨{ id := "login-01".data, anchorText := "A".data, commandText := "cmd".data,
         codeText := "code".data }, by simp, by decide, by decide, by decide⟩
  · exact (C4_block_element_filtering []
      { name := [], command := [], doc := [], description := [] }).2
      [{ anchorHref := some "#login-01".data, commandText := "cmd".data,
         codeText := "code".data }]
      { name := "login-01".data, command := "cmd".data, code := "code".data }
      (by decide)

/-- C5 counterexample: an anchor whose href is exactly the documentation
prefix (final path segment empty) matches the selector, but its mapped
name is dropped by the Boolean filter, so the scraper returns the empty
sequence (with the diagnostic) instead of returning a name for each
matching anchor as the claim states — here one anchor matches yet zero
names are returned. -/
theorem C5_counterexample :
    matchedHrefs [{ href := some "/docs/components/".data }]
      = ["/docs/components/".data] ∧
    (("/docs/components/".data).splitOn '/').getLast? = some [] ∧
    parseComponentsFromHtml false [{ href := some "/docs/components/".data }]
      = Except.ok ([], true) := by
  refine ⟨rfl, by decide, ?_⟩
  rfl

/-- C5 (amended): on a non-falsy HTML page the scraper selects exactly the
anchors whose href begins with the documentation prefix, maps each to the
final segment of its path, DROPS empty segments (an href ending in a
slash), and returns the remaining names sorted lexicographically
ascending; with zero surviving names it returns the empty sequence
together with the diagnostic flag, never an error. -/
theorem C5_components_listing (anchors : List Anchor) (names : List (List Char))
    (warned : Bool)
    (h : parseComponentsFromHtml false anchors = Except.ok (names, warned)) :
    List.Sorted lexLeP names ∧ names.Perm (componentNamesRaw anchors) ∧
    warned = names.isEmpty ∧
    (componentNamesRaw anchors = [] → names = [] ∧ warned = true) := by
  unfold parseComponentsFromHtml at h
  rw [if_neg (by simp)] at h
  rw [Except.ok.injEq, Prod.mk.injEq] at h
  rcases h with ⟨hn, hw⟩
  subst hn
  refine ⟨List.sorted_insertionSort lexLeP (componentNamesRaw anchors),
    List.perm_insertionSort lexLeP (componentNamesRaw anchors), hw.symm, ?_⟩
  intro hraw
  have hnil : List.insertionSort lexLeP (componentNamesRaw anchors) = [] := by
    rw [hraw]
    rfl
  exact ⟨hnil, by rw [← hw, hnil]; rfl⟩

theorem C5_components_listing_witness :
    List.Sorted lexLeP ["alert".data, "button".data] ∧
    List.Perm ["alert".data, "button".data] (componentNamesRaw
      [{ href := some "/docs/components/button".data },
       { href := some "/docs/components/alert".data },
       { href := some "/about".data }, { href := none }]) ∧
    false = (["alert".data, "button".data] : List (List Char)).isEmpty ∧
    (componentNamesRaw
        [{ href := some "/docs/components/button".data },
         { href := some "/docs/components/alert".data },
         { href := some "/about".data }, { href := none }] = [] →
      (["alert".data, "button".data] : List (List Char)) = [] ∧ false = true) :=
  C5_components_listing
    [{ href := some "/docs/components/button".data },
     { href := some "/docs/components/alert".data },
     { href := some "/about".data }, { href := none }]
    ["alert".data, "button".data] false rfl

theorem fACCD_invalid_empty (net : NetText) (st : Cache) :
    fetchAndCacheComponentData net [] st =
      (Except.error "Invalid component name".data, st, 0) := by
  unfold fetchAndCacheComponentData
  rw [if_pos rfl]

theorem fACCD_invalid_name (net : NetText) (n : List Char) (st : Cache)
    (hn : n ≠ []) (hs : n.filter isComponentNameChar ≠ n) :
    fetchAndCacheComponentData net n st =
      (Except.error ("Invalid component name: ".data ++ n), st, 0) := by
  unfold fetchAndCacheComponentData
  rw [if_neg hn, if_pos hs]

theorem fACCD_hit (net : NetText) (n : List Char) (st : Cache)
    (r : ComponentDocResource) (hn : n ≠ []) (hs : n.filter isComponentNameChar = n)
    (hhit : st n = some r) :
    fetchAndCacheComponentData net n st = (Except.ok r, st, 0) := by
  unfold fetchAndCacheComponentData
  rw [if_neg hn, if_neg (by simp [hs]), hhit]

theorem fACCD_miss_ok (net : NetText) (n : List Char) (st : Cache) (mdx : List Char)
    (hn : n ≠ []) (hs : n.filter isComponentNameChar = n) (hmiss : st n = none)
    (hfr : (fetchWithRetry (net (componentUrl n)) 0 RETRY_ATTEMPTS RETRY_DELAY_MS).2
      = Except.ok mdx) :
    fetchAndCacheComponentData net n st =
      (Except.ok (transformComponentData0 n mdx),
       cacheSet st n (transformComponentData0 n mdx),
       (fetchWithRetry (net (componentUrl n)) 0 RETRY_ATTEMPTS RETRY_DELAY_MS).1.length + 1) := by
  simp only [fetchAndCacheComponentData]
  rw [if_neg hn, if_neg (by simp [hs]), hmiss, hfr]
  rfl

theorem fACCD_miss_error (net : NetText) (n : List Char) (st : Cache) (e : Err)
    (hn : n ≠ []) (hs : n.filter isComponentNameChar = n) (hmiss : st n = none)
    (hfr : (fetchWithRetry (net (componentUrl n)) 0 RETRY_ATTEMPTS RETRY_DELAY_MS).2
      = Except.error e) :
    fetchAndCacheComponentData net n st =
      (Except.error ("Failed to fetch and transform data for key ".data ++ [squote] ++ n
         ++ [squote] ++ ": ".data ++ e), st,
       (fetchWithRetry (net (componentUrl n)) 0 RETRY_ATTEMPTS RETRY_DELAY_MS).1.length + 1) := by
  simp only [fetchAndCacheComponentData]
  rw [if_neg hn, if_neg (by simp [hs]), hmiss, hfr]
  rfl

theorem fACCD_ok_inv {net : NetText} {n : List Char} {st : Cache}
    {r : ComponentDocResource} {st2 : Cache} {k : Nat}
    (h : fetchAndCacheComponentData net n st = (Except.ok r, st2, k)) :
    n ≠ [] ∧ n.filter isComponentNameChar = n ∧ st2 n = some r := by
  by_cases hn : n = []
  · subst hn
    rw [fACCD_invalid_empty] at h
    simp at h
  by_cases hs : n.filter isComponentNameChar = n
  · refine ⟨hn, hs, ?_⟩
    cases hsn : st n with
    | some r0 =>
      rw [fACCD_hit net n st r0 hn hs hsn] at h
      simp only [Prod.mk.injEq, Except.ok.injEq] at h
      rw [← h.2.1, hsn, h.1]
    | none =>
      cases hfr : (fetchWithRetry (net (componentUrl n)) 0 RETRY_ATTEMPTS RETRY_DELAY_MS).2 with
      | error e =>
        rw [fACCD_miss_error net n st e hn hs hsn hfr] at h
        simp at h
      | ok mdx =>
        rw [fACCD_miss_ok net n st mdx hn hs hsn hfr] at h
        simp only [Prod.mk.injEq, Except.ok.injEq] at h
        rw [← h.2.1, ← h.1]
        simp [cacheSet]
  · rw [fACCD_invalid_name net n st hn hs] at h
    simp at h

/-- C6: a successful resolution of a component name inserts the resource
into the cache under that name; afterwards, any lookup of the name against
a cache still holding that resource returns exactly it, leaves the cache
unchanged and performs zero fetch attempts, whatever the network oracle
does — both through `fetchAndCacheComponentData` and through the block
path `getBlockData` — because the cache check short-circuits before any
fetch. -/
theorem C6_cache_short_circuit (net : NetText) (n : List Char) (st : Cache)
    (r : ComponentDocResource) (st2 : Cache) (k : Nat)
    (h : fetchAndCacheComponentData net n st = (Except.ok r, st2, k)) :
    st2 n = some r ∧
    (∀ (net2 : NetText) (st3 : Cache), st3 n = some r →
      fetchAndCacheComponentData net2 n st3 = (Except.ok r, st3, 0)) ∧
    (∀ (net3 : NetPage) (st4 : Cache), st4 n = some r →
      getBlockData net3 n st4 = (Except.ok (Except.ok r), st4, 0)) := by
  obtain ⟨hn, hs, hcached⟩ := fACCD_ok_inv h
  refine ⟨hcached, ?_, ?_⟩
  · intro net2 st3 h3
    exact fACCD_hit net2 n st3 r hn hs h3
  · intro net3 st4 h4
    unfold getBlockData
    rw [if_neg hn, h4]

theorem C6_cache_short_circuit_witness :
    ((fetchAndCacheComponentData (fun _ _ => Except.ok "hello".data) "dialog".data
        (fun _ => none)).2.1) "dialog".data
      = some (transformComponentData0 "dialog".data "hello".data) ∧
    fetchAndCacheComponentData (fun _ _ => Except.error "down".data) "dialog".data
        (fun m => if m = "dialog".data
          then some (transformComponentData0 "dialog".data "hello".data) else none)
      = (Except.ok (transformComponentData0 "dialog".data "hello".data),
         (fun m => if m = "dialog".data
           then some (transformComponentData0 "dialog".data "hello".data) else none), 0) := by
  have h := C6_cache_short_circuit (fun _ _ => Except.ok "hello".data) "dialog".data
    (fun _ => none) (transformComponentData0 "dialog".data "hello".data)
    ((fetchAndCacheComponentData (fun _ _ => Except.ok "hello".data) "dialog".data
      (fun _ => none)).2.1) 1 rfl
  exact ⟨h.1, h.2.1 (fun _ _ => Except.error "down".data)
    (fun m => if m = "dialog".data
      then some (transformComponentData0 "dialog".data "hello".data) else none)
    (by simp)⟩

/-- C7: a failed fetch or a failed transform leaves the cache unchanged —
this holds for the generic `fetchAndCache` and `cacheResource` helpers and
for `fetchAndCacheComponentData` — and a later lookup of the same (valid,
uncached) name performs at least one fetch attempt again. -/
theorem C7_no_cache_entry_on_failure :
    (∀ (α : Type) (key : List Char) (fr : Except Err α)
        (tf : α → Except Err (List ComponentDocResource)) (st : Cache) (e : Err),
      (fetchAndCache key fr tf st).1 = Except.error e →
        (fetchAndCache key fr tf st).2 = st) ∧
    (∀ (α : Type) (key : List Char) (fr : Except Err α)
        (cache : List Char → Option α) (e : Err),
      (cacheResource key fr cache).1 = Except.error e →
        (cacheResource key fr cache).2 = cache) ∧
    (∀ (net : NetText) (n : List Char) (st : Cache) (e : Err),
      (fetchAndCacheComponentData net n st).1 = Except.error e →
        (fetchAndCacheComponentData net n st).2.1 = st) ∧
    (∀ (net : NetText) (n : List Char) (st : Cache),
      st n = none → n ≠ [] → n.filter isComponentNameChar = n →
        1 ≤ (fetchAndCacheComponentData net n st).2.2) := by
  refine ⟨?_, ?_, ?_, ?_⟩
  · intro α key fr tf st e h
    unfold fetchAndCache at h ⊢
    cases hm : (match fr with
                | .ok raw => tf raw
                | .error e1 => Except.error e1) with
    | error e2 => rfl
    | ok td =>
      rw [hm] at h
      simp at h
  · intro α key fr cache e h
    unfold cacheResource at h ⊢
    cases hk : cache key with
    | some v => rfl
    | none =>
      cases fr with
      | ok d =>
        rw [hk] at h
        simp at h
      | error e1 => rfl
  · intro net n st e h
    by_cases hn : n = []
    · subst hn
      rw [fACCD_invalid_empty]
    by_cases hs : n.filter isComponentNameChar = n
    · cases hsn : st n with
      | some r0 =>
        rw [fACCD_hit net n st r0 hn hs hsn] at h
        simp at h
      | none =>
        cases hfr : (fetchWithRetry (net (componentUrl n)) 0
            RETRY_ATTEMPTS RETRY_DELAY_MS).2 with
        | error e1 => rw [fACCD_miss_error net n st e1 hn hs hsn hfr]
        | ok mdx =>
          rw [fACCD_miss_ok net n st mdx hn hs hsn hfr] at h
          simp at h
    · rw [fACCD_invalid_name net n st hn hs]
  · intro net n st hmiss hn hs
    cases hfr : (fetchWithRetry (net (componentUrl n)) 0
        RETRY_ATTEMPTS RETRY_DELAY_MS).2 with
    | error e1 =>
      rw [fACCD_miss_error net n st e1 hn hs hmiss hfr]
      simp
    | ok mdx =>
      rw [fACCD_miss_ok net n st mdx hn hs hmiss hfr]
      simp

theorem C7_no_cache_entry_on_failure_witness :
    (fetchAndCache "k".data (Except.error "x".data)
      (fun _ : List Char => Except.ok []) (fun _ => none)).2 = (fun _ => none) ∧
    (cacheResource "k".data (Except.error "x".data)
      (fun _ => (none : Option Nat))).2 = (fun _ => none) ∧
    (fetchAndCacheComponentData (fun _ _ => Except.error "x".data) "b".data
      (fun _ => none)).2.1 = (fun _ => none) ∧
    1 ≤ (fetchAndCacheComponentData (fun _ _ => Except.error "x".data) "b".data
      (fun _ => none)).2.2 :=
  ⟨C7_no_cache_entry_on_failure.1 (List Char) "k".data (Except.error "x".data)
      (fun _ => Except.ok []) (fun _ => none) _ rfl,
   C7_no_cache_entry_on_failure.2.1 Nat "k".data (Except.error "x".data)
      (fun _ => none) _ rfl,
   C7_no_cache_entry_on_failure.2.2.1 (fun _ _ => Except.error "x".data) "b".data
      (fun _ => none) _ rfl,
   C7_no_cache_entry_on_failure.2.2.2 (fun _ _ => Except.error "x".data) "b".data
      (fun _ => none) rfl (by decide) (by decide)⟩

/-- C8: `install-component` with a truthy runtime outside
npm/pnpm/yarn/bun (e.g. `deno`) answers the validation-error response with
zero fetch attempts and an unchanged cache; likewise a component name
containing disallowed characters is rejected — error response, zero fetch
attempts, unchanged cache — before any network call. -/
theorem C8_validation_before_network :
    (∀ (net : NetText) (c rt : List Char) (st : Cache), c ≠ [] → rt ≠ [] →
      validateRuntime (some rt) = false →
      installComponent net c (some rt) st =
        (createResponse ("Invalid runtime: ".data ++ rt
          ++ ". Must be one of: npm, pnpm, yarn, bun".data) true none, st, 0)) ∧
    (∀ (net : NetText) (c : List Char) (rt : Option (List Char)) (st : Cache),
      c.filter isComponentNameChar ≠ c →
      (jsTruthyStr rt = false ∨ validateRuntime rt = true) →
      (installComponent net c rt st).1.isError = true ∧
      (installComponent net c rt st).2.1 = st ∧
      (installComponent net c rt st).2.2 = 0) := by
  constructor
  · intro net c rt st hc hrt hv
    unfold installComponent
    rw [if_neg hc, if_pos (show (jsTruthyStr (some rt) && !validateRuntime (some rt))
      = true by simp [jsTruthyStr, hrt, hv])]
    rfl
  · intro net c rt st hfil hrt
    have hc : c ≠ [] := by
      intro hnil
      exact hfil (by rw [hnil]; rfl)
    unfold installComponent
    rw [if_neg hc, if_neg (by rcases hrt with h | h <;> simp [h]),
      fACCD_invalid_name net c st hc hfil]
    exact ⟨rfl, rfl, rfl⟩

theorem C8_validation_before_network_witness :
    installComponent (fun _ _ => Except.ok "hello".data) "button".data
        (some "deno".data) (fun _ => none) =
      (createResponse ("Invalid runtime: ".data ++ "deno".data
        ++ ". Must be one of: npm, pnpm, yarn, bun".data) true none,
       (fun _ => none), 0) ∧
    ((installComponent (fun _ _ => Except.ok "hello".data) "bad name!".data
        none (fun _ => none)).1.isError = true ∧
     (installComponent (fun _ _ => Except.ok "hello".data) "bad name!".data
        none (fun _ => none)).2.1 = (fun _ => none) ∧
     (installComponent (fun _ _ => Except.ok "hello".data) "bad name!".data
        none (fun _ => none)).2.2 = 0) :=
  ⟨C8_validation_before_network.1 (fun _ _ => Except.ok "hello".data) "button".data
      "deno".data (fun _ => none) (by decide) (by decide) (by decide),
   C8_validation_before_network.2 (fun _ _ => Except.ok "hello".data) "bad name!".data
      none (fun _ => none) (by decide) (Or.inl rfl)⟩

/-- C9: if any one of the configured block pages fails to fetch or parse,
the whole multi-page aggregate `fetchAndCacheBlocks` yields an error and
the cache is left exactly as it was — no partial block list is returned or
cached. -/
theorem collectPages_error_head (e : Err) (rest : List (Except Err (List Block))) :
    collectPages (Except.error e :: rest) = Except.error e := rfl

theorem collectPages_ok_cons (b : List Block) (rest : List (Except Err (List Block))) :
    collectPages (Except.ok b :: rest)
      = (collectPages rest).map (fun bs => b :: bs) := rfl

theorem fetchAndCacheBlocks_eq (net : NetPage) (st : Cache) :
    fetchAndCacheBlocks net st =
      ((fetchAndCache "blocks".data (collectPages
          [(parseBlocksFromPage net (BASE_URL ++ "/blocks/sidebar".data)).1,
           (parseBlocksFromPage net (BASE_URL ++ "/blocks/authentication".data)).1])
          (fun pages => Except.ok (transformBlocks pages)) st).1,
       (fetchAndCache "blocks".data (collectPages
          [(parseBlocksFromPage net (BASE_URL ++ "/blocks/sidebar".data)).1,
           (parseBlocksFromPage net (BASE_URL ++ "/blocks/authentication".data)).1])
          (fun pages => Except.ok (transformBlocks pages)) st).2,
       (parseBlocksFromPage net (BASE_URL ++ "/blocks/sidebar".data)).2 +
         ((parseBlocksFromPage net (BASE_URL ++ "/blocks/authentication".data)).2 + 0)) :=
  rfl

theorem C9_aggregate_fails_whole (net : NetPage) (st : Cache)
    (h : ∃ url ∈ BLOCK_PAGES, ∃ e, (parseBlocksFromPage net url).1 = Except.error e) :
    (∃ e2, (fetchAndCacheBlocks net st).1 = Except.error e2) ∧
    (fetchAndCacheBlocks net st).2.1 = st := by
  obtain ⟨url, hmem, e, herr⟩ := h
  rw [fetchAndCacheBlocks_eq]
  have hpages : BLOCK_PAGES = [BASE_URL ++ "/blocks/sidebar".data,
      BASE_URL ++ "/blocks/authentication".data] := rfl
  rw [hpages] at hmem
  rcases List.mem_pair.mp hmem with hurl | hurl
  · subst hurl
    rw [herr, collectPages_error_head, fetchAndCache_error]
    exact ⟨⟨_, rfl⟩, rfl⟩
  · subst hurl
    rw [herr]
    cases h1 : (parseBlocksFromPage net (BASE_URL ++ "/blocks/sidebar".data)).1 with
    | error e1 =>
      rw [collectPages_error_head, fetchAndCache_error]
      exact ⟨⟨_, rfl⟩, rfl⟩
    | ok b1 =>
      rw [collectPages_ok_cons, collectPages_error_head]
      rw [show Except.map (fun bs => b1 :: bs)
          (Except.error e : Except Err (List (List Block)))
        = (Except.error e : Except Err (List (List Block))) from rfl]
      rw [fetchAndCache_error]
      exact ⟨⟨_, rfl⟩, rfl⟩

theorem C9_aggregate_fails_whole_witness :
    ((fetchAndCacheBlocks (fun _ _ => Except.error "down".data) (fun _ => none)).1.isOk
      = false) ∧
    (fetchAndCacheBlocks (fun _ _ => Except.error "down".data) (fun _ => none)).2.1
      = (fun _ => none) := by
  have h := C9_aggregate_fails_whole (fun _ _ => Except.error "down".data) (fun _ => none)
    ⟨BASE_URL ++ "/blocks/sidebar".data, by decide, _, rfl⟩
  obtain ⟨⟨e2, he⟩, hst⟩ := h
  refine ⟨?_, hst⟩
  rw [he]
  rfl

theorem commandAnswer_empty_runtime (cs : CommandSet) :
    commandAnswer (some []) cs = commandAnswer none cs ∨
    (commandAnswer (some []) cs = createResponse
        ("No installation command found for runtime ".data ++ [squote] ++ [squote])
        true none ∧
     commandAnswer none cs = createResponse
        ("No installation command found for runtime ".data ++ [squote]
          ++ "undefined".data ++ [squote]) true none) := by
  unfold commandAnswer
  rw [show selectCommand (some []) cs = some cs.npm from rfl,
    show selectCommand none cs = some cs.npm from rfl]
  generalize cs.npm = npmCmd
  cases npmCmd with
  | nil => exact Or.inr ⟨rfl, rfl⟩
  | cons c0 crest => exact Or.inl rfl

theorem commandResponse_empty_runtime (msg : List Char)
    (cmds : Option (List CommandSet)) :
    commandResponse msg (some []) cmds = commandResponse msg none cmds ∨
    (commandResponse msg (some []) cmds = createResponse
        ("No installation command found for runtime ".data ++ [squote] ++ [squote])
        true none ∧
     commandResponse msg none cmds = createResponse
        ("No installation command found for runtime ".data ++ [squote]
          ++ "undefined".data ++ [squote]) true none) := by
  cases cmds with
  | none => exact Or.inl rfl
  | some l =>
    cases l with
    | nil => exact Or.inl rfl
    | cons cs rest => exact commandAnswer_empty_runtime cs

/-- C10 counterexample: with a cached block whose npm command is the empty
string (the live block scraper can produce such blocks), `install-blocks`
with runtime given as the empty string does NOT return the same result as
with the runtime omitted: both fail to find a command, but the error text
interpolates the runtime differently (two bare quotes versus the word
`undefined` in quotes). -/
theorem C10_counterexample :
    (installBlock (fun _ _ => Except.error []) "b".data (some [])
        (fun m => if m = "b".data then some
          { name := "b".data, description := none, doc := some "x".data,
            commands := some [{ npm := [], pnpm := [], yarn := [], bun := [] }],
            links := none, isBlock := some true } else none)).1
      ≠ (installBlock (fun _ _ => Except.error []) "b".data none
        (fun m => if m = "b".data then some
          { name := "b".data, description := none, doc := some "x".data,
            commands := some [{ npm := [], pnpm := [], yarn := [], bun := [] }],
            links := none, isBlock := some true } else none)).1 := by
  decide

/-- C10 (amended): `validateRuntime` accepts an absent and an empty runtime,
and the install handlers select the npm-flavored command in both cases; a
call with the empty-string runtime returns the same cache state, fetch
count and — whenever the selected npm command is nonempty, and in every
other branch — the same response as the call with the runtime omitted.
The single exception is the branch where the selected npm command is the
empty string: both calls answer the command-not-found error, but the error
texts interpolate the runtime differently (empty versus `undefined`). -/
theorem C10_empty_runtime_like_omitted :
    validateRuntime none = true ∧ validateRuntime (some []) = true ∧
    (∀ cs : CommandSet, selectCommand (some []) cs = some cs.npm ∧
      selectCommand none cs = some cs.npm) ∧
    (∀ (net : NetText) (c : List Char) (st : Cache),
      (installComponent net c (some []) st).2 = (installComponent net c none st).2 ∧
      ((installComponent net c (some []) st).1 = (installComponent net c none st).1 ∨
        ((installComponent net c (some []) st).1 = createResponse
            ("No installation command found for runtime ".data
              ++ [squote] ++ [squote]) true none ∧
         (installComponent net c none st).1 = createResponse
            ("No installation command found for runtime ".data
              ++ [squote] ++ "undefined".data ++ [squote]) true none))) ∧
    (∀ (net : NetPage) (b : List Char) (st : Cache),
      (installBlock net b (some []) st).2 = (installBlock net b none st).2 ∧
      ((installBlock net b (some []) st).1 = (installBlock net b none st).1 ∨
        ((installBlock net b (some []) st).1 = createResponse
            ("No installation command found for runtime ".data
              ++ [squote] ++ [squote]) true none ∧
         (installBlock net b none st).1 = createResponse
            ("No installation command found for runtime ".data
              ++ [squote] ++ "undefined".data ++ [squote]) true none))) := by
  refine ⟨rfl, rfl, fun cs => ⟨rfl, rfl⟩, ?_, ?_⟩
  · intro net c st
    by_cases hc : c = []
    · subst hc
      exact ⟨rfl, Or.inl rfl⟩
    · unfold installComponent
      rw [if_neg hc, if_neg hc]
      rw [if_neg (show ¬((jsTruthyStr (some []) && !validateRuntime (some [])) = true)
        by decide)]
      rw [if_neg (show ¬((jsTruthyStr none && !validateRuntime none) = true) by decide)]
      rcases hfd : fetchAndCacheComponentData net c st with ⟨res, st2, k⟩
      cases res with
      | error e => exact ⟨rfl, Or.inl rfl⟩
      | ok cd =>
        rcases commandResponse_empty_runtime
            ("No installation command found for component ".data
              ++ [squote] ++ c ++ [squote]) cd.commands with h | h
        · exact ⟨rfl, Or.inl (congrArg (fun resp => (resp, st2, k).1) h)⟩
        · exact ⟨rfl, Or.inr ⟨congrArg (fun resp => (resp, st2, k).1) h.1,
            congrArg (fun resp => (resp, st2, k).1) h.2⟩⟩
  · intro net b st
    unfold installBlock
    rw [if_neg (show ¬((jsTruthyStr (some []) && !validateRuntime (some [])) = true)
      by decide)]
    rw [if_neg (show ¬((jsTruthyStr none && !validateRuntime none) = true) by decide)]
    rcases hgd : getBlockData net b st with ⟨res, st2, k⟩
    cases res with
    | error e => exact ⟨rfl, Or.inl rfl⟩
    | ok inner =>
      cases inner with
      | error e => exact ⟨rfl, Or.inl rfl⟩
      | ok bd =>
        rcases commandResponse_empty_runtime
            ("No installation command found for block ".data
              ++ [squote] ++ b ++ [squote]) bd.commands with h | h
        · exact ⟨rfl, Or.inl (congrArg (fun resp => (resp, st2, k).1) h)⟩
        · exact ⟨rfl, Or.inr ⟨congrArg (fun resp => (resp, st2, k).1) h.1,
            congrArg (fun resp => (resp, st2, k).1) h.2⟩⟩
